import Mathlib

/-!
Verification development for the decoder family of the
`neural_session_relevance_model` repository (seq_to_seq_model/decoder.py,
seq_to_seq_model/helper.py).

Tensors are shallowly embedded over the real numbers: a 2-D tensor is a pair of
dimensions together with a total entry function, and a 3-D tensor likewise.
Floating-point arithmetic is modelled by exact real arithmetic, so statements
that the Python code satisfies "within floating-point tolerance" are proved
exactly.  Randomness (dropout masks, out-of-vocabulary embedding draws) is
modelled by abstract function parameters, quantified universally in the
theorems.  The internal transition functions of the torch recurrent cells
(nn.LSTM / nn.GRU / nn.RNN) live outside the repository and are modelled by an
abstract `run` field constrained only by torch's documented output shapes;
torch's check that the input width equals the width fixed at module
construction is modelled explicitly, since decoder.py's layer loop depends
on it.
-/

noncomputable section

/-- A 2-D tensor: row and column counts plus a total entry function.
Entries outside the tracked bounds are junk and never relied upon. -/
structure Ten2 where
  rows : ℕ
  cols : ℕ
  ent : ℕ → ℕ → ℝ

/-- A 3-D tensor (e.g. `encoder_outputs` of shape (batch, source_length, nhid),
or a hidden state of shape (nlayers, batch, nhid)). -/
structure Ten3 where
  d1 : ℕ
  d2 : ℕ
  d3 : ℕ
  ent : ℕ → ℕ → ℕ → ℝ

/-- The shape triple of a 3-D tensor. -/
def shape3 (t : Ten3) : ℕ × ℕ × ℕ := (t.d1, t.d2, t.d3)

/-- Inner product of the first `n` coordinates; the summation length of a
matrix product is the contracted dimension of the left operand. -/
def dotR (n : ℕ) (x y : ℕ → ℝ) : ℝ := ∑ k ∈ Finset.range n, x k * y k

/-- torch.sigmoid. -/
def sigmoidR (x : ℝ) : ℝ := 1 / (1 + Real.exp (-x))

/-- One row of `F.softmax` along dimension 1 of a 2-D tensor with `n` columns. -/
def softmaxRow (n : ℕ) (v : ℕ → ℝ) (j : ℕ) : ℝ :=
  Real.exp (v j) / ∑ k ∈ Finset.range n, Real.exp (v k)

/-- `F.softmax` on a 2-D tensor (the pre-0.4 torch default: along dim 1). -/
def softmaxT (x : Ten2) : Ten2 :=
  ⟨x.rows, x.cols, fun i => softmaxRow x.cols (x.ent i)⟩

/-- `F.log_softmax` on a 2-D tensor, along dim 1. -/
def logSoftmaxT (x : Ten2) : Ten2 :=
  ⟨x.rows, x.cols, fun i j =>
    x.ent i j - Real.log (∑ k ∈ Finset.range x.cols, Real.exp (x.ent i k))⟩

/-- `F.relu`, elementwise. -/
def reluT2 (x : Ten2) : Ten2 := ⟨x.rows, x.cols, fun i j => max (x.ent i j) 0⟩

/-- `torch.cat((a, b), 1)` on 2-D tensors (also used for dim-2 concatenation of
(batch, 1, n) tensors, whose singleton middle dimension is elided). -/
def catT2 (a b : Ten2) : Ten2 :=
  ⟨a.rows, a.cols + b.cols, fun i j =>
    if j < a.cols then a.ent i j else b.ent i (j - a.cols)⟩

/-- An `nn.Linear(inF, outF)` module: weight matrix (outF × inF) and bias. -/
structure LinearM where
  inF : ℕ
  outF : ℕ
  w : ℕ → ℕ → ℝ
  b : ℕ → ℝ

/-- Applying a linear module to each row of a 2-D tensor. -/
def LinearM.apT (l : LinearM) (x : Ten2) : Ten2 :=
  ⟨x.rows, l.outF, fun i o => dotR l.inF (l.w o) (x.ent i) + l.b o⟩

/-- `self.drop` applied to a 2-D tensor.  The mask application `df` is an
abstract entrywise transformation (universally quantified in all theorems);
dropout never changes shapes. -/
def dropT2 (df : (ℕ → ℕ → ℝ) → ℕ → ℕ → ℝ) (x : Ten2) : Ten2 :=
  ⟨x.rows, x.cols, df x.ent⟩

/-- `self.embedding(input)` on a token batch of size `bsz`: row `i` is the
embedding-matrix row of token `inp i`, of width `em` = `config.emsize`. -/
def embT (w : ℕ → ℕ → ℝ) (inp : ℕ → ℕ) (bsz em : ℕ) : Ten2 :=
  ⟨bsz, em, fun i => w (inp i)⟩

/-- The multi-layer recurrent module built in each `__init__`
(`nn.LSTM`/`nn.GRU`/`nn.RNN`).  `run` is the abstract internal transition
(external library code); `run_rows`/`run_cols` are torch's documented output
shape: the step output has the input's batch dimension and width `nhid`.
`H` is the hidden-state type (a tensor, or a pair for the LSTM). -/
structure RnnCore (H : Type) where
  inputSize : ℕ
  nhid : ℕ
  run : Ten2 → H → Ten2 × H
  run_rows : ∀ x h, (run x h).1.rows = x.rows
  run_cols : ∀ x h, (run x h).1.cols = nhid

/-- Calling the recurrent module.  torch rejects an input whose width differs
from the `input_size` fixed at construction; that check is modelled here, as
decoder.py's layer loop depends on it. -/
def RnnCore.call {H : Type} (r : RnnCore H) (x : Ten2) (h : H) : Option (Ten2 × H) :=
  if x.cols = r.inputSize then some (r.run x h) else none

/-- The loop `for i in range(n): output, hidden = step(output, hidden)` shared
by all four `forward` methods (with a per-variant body `step`). -/
def runLayers {H : Type} (step : Ten2 → H → Option (Ten2 × H)) :
    ℕ → Ten2 → H → Option (Ten2 × H)
  | 0, x, h => some (x, h)
  | n + 1, x, h => (step x h).bind fun p => runLayers step n p.1 p.2

/-! ## The no-attention `Decoder` (decoder.py lines 17–67) -/

/-- The `Decoder` class.  `__init__` (lines 20–39) fixes: an embedding of width
`config.emsize`, `out = nn.Linear(config.nhid, input_size)`, and a recurrent
module whose input width is `config.emsize` and hidden width `config.nhid`;
those construction facts are the coherence fields. -/
structure DecoderM (H : Type) where
  vocab : ℕ
  emsize : ℕ
  nhid : ℕ
  nlayers : ℕ
  embW : ℕ → ℕ → ℝ
  dropF : (ℕ → ℕ → ℝ) → ℕ → ℕ → ℝ
  outL : LinearM
  rnn : RnnCore H
  out_in : outL.inF = nhid
  out_out : outL.outF = vocab
  rnn_in : rnn.inputSize = emsize
  rnn_hid : rnn.nhid = nhid

/-- What `Decoder.forward` returns: `(output, hidden)` (line 48). -/
structure DecOut (H : Type) where
  out : Ten2
  hidden : H

/-- Body of the layer loop of `Decoder.forward` (lines 44–46):
`output, hidden = self.rnn(output, hidden); output = self.drop(output)`. -/
def decoderLoopBody {H : Type} (d : DecoderM H) : Ten2 → H → Option (Ten2 × H) :=
  fun x h => (d.rnn.call x h).map fun p => (dropT2 d.dropF p.1, p.2)

/-- `Decoder.forward` (lines 41–48): embed and drop the token batch, loop the
recurrent module `nlayers` times, project and log-softmax.  (The singleton
sequence dimension added by `unsqueeze(1)` and removed by `squeeze(1)` is
elided.) -/
def DecoderM.forward {H : Type} (d : DecoderM H) (inp : ℕ → ℕ) (bsz : ℕ) (hid : H) :
    Option (DecOut H) :=
  (runLayers (decoderLoopBody d) d.nlayers
      (dropT2 d.dropF (embT d.embW inp bsz d.emsize)) hid).map fun p =>
    ⟨logSoftmaxT (d.outL.apT p.1), p.2⟩

/-! ## The naive `AttentionDecoder` (decoder.py lines 70–130)

Line 99 computes `final_layer_index = hidden[0].size(0) - 1` and line 100 reads
`hidden[0][final_layer_index]`, which is a (batch, nhid) slice exactly when the
hidden state is the LSTM pair `(h, c)` (for the single-tensor GRU/RNN hidden
state, `hidden[0]` is already a (batch, nhid) slice and the subsequent
`torch.cat(..., 1)` with the 1-D row it indexes fails); the embedding therefore
fixes the hidden-state type to the pair of 3-D tensors. -/

structure AttnM where
  vocab : ℕ
  emsize : ℕ
  nhid : ℕ
  maxSentLength : ℕ
  nlayers : ℕ
  embW : ℕ → ℕ → ℝ
  dropF : (ℕ → ℕ → ℝ) → ℕ → ℕ → ℝ
  attnL : LinearM
  attnCombine : LinearM
  outL : LinearM
  rnn : RnnCore (Ten3 × Ten3)
  attn_in : attnL.inF = 2 * nhid
  attn_out : attnL.outF = maxSentLength
  ac_in : attnCombine.inF = 2 * nhid
  ac_out : attnCombine.outF = nhid
  out_out : outL.outF = vocab
  rnn_in : rnn.inputSize = emsize
  rnn_hid : rnn.nhid = nhid

/-- What `AttentionDecoder.forward` returns:
`(output, hidden, attn_weights)` (line 111). -/
structure AttnOut where
  out : Ten2
  hidden : Ten3 × Ten3
  attn : Ten2

/-- Body of the layer loop of `AttentionDecoder.forward` (lines 105–108):
`output = F.relu(output); output, hidden = self.rnn(output, hidden);
output = self.drop(output)`. -/
def attnLoopBody (d : AttnM) : Ten2 → Ten3 × Ten3 → Option (Ten2 × (Ten3 × Ten3)) :=
  fun x h => (d.rnn.call (reluT2 x) h).map fun p => (dropT2 d.dropF p.1, p.2)

/-- `AttentionDecoder.forward` (lines 96–111).  The `torch.bmm` of line 101
requires the attention width (`max_sent_length`) to equal the encoder-output
length `encoder_outputs.size(1)`; that check is modelled, since the two can
differ (§9 of the specification flags this). -/
def AttnM.forward (d : AttnM) (inp : ℕ → ℕ) (bsz : ℕ) (hid : Ten3 × Ten3)
    (enc : Ten3) : Option AttnOut :=
  let embedded := dropT2 d.dropF (embT d.embW inp bsz d.emsize)
  let query : Ten2 := ⟨hid.1.d2, hid.1.d3, fun i k => hid.1.ent (hid.1.d1 - 1) i k⟩
  let aw := softmaxT (d.attnL.apT (catT2 embedded query))
  if aw.cols = enc.d2 then
    let applied : Ten2 :=
      ⟨bsz, enc.d3, fun i k => ∑ j ∈ Finset.range enc.d2, aw.ent i j * enc.ent i j k⟩
    (runLayers (attnLoopBody d) d.nlayers
        (d.attnCombine.apT (catT2 embedded applied)) hid).map fun p =>
      ⟨logSoftmaxT (d.outL.apT p.1), p.2, aw⟩
  else none

/-! ## The `GloballyAttentiveDecoder` (decoder.py lines 133–198) -/

/-- The `GloballyAttentiveDecoder` class.  `__init__` (lines 137–162) fixes a
bilinear parameter `weight` of shape (nhid, nhid) and a recurrent module whose
input width is `config.emsize + config.nhid`. -/
structure GlobM (H : Type) where
  vocab : ℕ
  emsize : ℕ
  nhid : ℕ
  nlayers : ℕ
  weightW : ℕ → ℕ → ℝ
  embW : ℕ → ℕ → ℝ
  dropF : (ℕ → ℕ → ℝ) → ℕ → ℕ → ℝ
  attnCombine : LinearM
  outL : LinearM
  rnn : RnnCore H
  ac_in : attnCombine.inF = 2 * nhid
  ac_out : attnCombine.outF = nhid
  out_out : outL.outF = vocab
  rnn_in : rnn.inputSize = emsize + nhid
  rnn_hid : rnn.nhid = nhid

/-- What `GloballyAttentiveDecoder.forward` returns:
`(output, hidden, context_vector, attn_weights)` (line 179). -/
structure GlobOut (H : Type) where
  out : Ten2
  hidden : H
  context : Ten2
  attn : Ten2

/-- Body of the layer loop of `GloballyAttentiveDecoder.forward`
(lines 169–170): `output, hidden = self.rnn(output, hidden)`. -/
def globalLoopBody {H : Type} (d : GlobM H) : Ten2 → H → Option (Ten2 × H) :=
  fun x h => d.rnn.call x h

/-- Lines 172–174: `weighted_encoder_output = torch.bmm(W.expand, encᵀ)` and
`score = torch.bmm(output, weighted_encoder_output)`; per batch row `i` and
source position `j` the score is `output_i · (W · enc_{i,j})`, contracted over
the left operands' widths. -/
def globalScore {H : Type} (d : GlobM H) (output : Ten2) (bsz : ℕ) (enc : Ten3) : Ten2 :=
  ⟨bsz, enc.d2, fun i j =>
    dotR output.cols (output.ent i) fun k => dotR d.nhid (d.weightW k) (enc.ent i j)⟩

/-- Line 176: `context_vector = torch.bmm(attn_weights.unsqueeze(1),
encoder_outputs)`, the attention-weighted sum of encoder outputs. -/
def contextOf (aw : Ten2) (bsz : ℕ) (enc : Ten3) : Ten2 :=
  ⟨bsz, enc.d3, fun i k => ∑ j ∈ Finset.range enc.d2, aw.ent i j * enc.ent i j k⟩

/-- Lines 175–179 of `GloballyAttentiveDecoder.forward`, after the layer
loop: softmax the bilinear scores into `attn_weights`, build the context
vector, combine, project, log-softmax, and return
`(output, hidden, context_vector, attn_weights)`. -/
def globalPost {H : Type} (d : GlobM H) (bsz : ℕ) (enc : Ten3) (p : Ten2 × H) :
    GlobOut H :=
  ⟨logSoftmaxT (d.outL.apT (d.attnCombine.apT
      (catT2 (contextOf (softmaxT (globalScore d p.1 bsz enc)) bsz enc) p.1))),
    p.2,
    contextOf (softmaxT (globalScore d p.1 bsz enc)) bsz enc,
    softmaxT (globalScore d p.1 bsz enc)⟩

/-- `GloballyAttentiveDecoder.forward` (lines 164–179). -/
def GlobM.forward {H : Type} (d : GlobM H) (inp : ℕ → ℕ) (bsz : ℕ) (hid : H)
    (lastContext : Ten2) (enc : Ten3) : Option (GlobOut H) :=
  (runLayers (globalLoopBody d) d.nlayers
      (catT2 (dropT2 d.dropF (embT d.embW inp bsz d.emsize)) lastContext) hid).map
    (globalPost d bsz enc)

/-- The bilinear score as the specification words it: for every batch row `i`
and encoder position `j`, `score = output · W · encᵀ`, the explicit double
contraction. -/
def globalScoreSpec {H : Type} (d : GlobM H) (output : Ten2) (bsz : ℕ) (enc : Ten3) :
    Ten2 :=
  ⟨bsz, enc.d2, fun i j =>
    ∑ k ∈ Finset.range d.nhid, ∑ l ∈ Finset.range d.nhid,
      output.ent i k * d.weightW k l * enc.ent i j l⟩

/-- The part of the specification's global-attention step after the recurrent
core: softmax-normalize the bilinear scores into the attention weights, take
the attention-weighted sum of encoder outputs as the context vector, combine
and project into log-probabilities, and yield the tuple
(log-probabilities, hidden state, context, attention weights). -/
def globalPostSpec {H : Type} (d : GlobM H) (bsz : ℕ) (enc : Ten3) (p : Ten2 × H) :
    GlobOut H :=
  ⟨logSoftmaxT (d.outL.apT (d.attnCombine.apT
      (catT2 (contextOf (softmaxT (globalScoreSpec d p.1 bsz enc)) bsz enc) p.1))),
    p.2,
    contextOf (softmaxT (globalScoreSpec d p.1 bsz enc)) bsz enc,
    softmaxT (globalScoreSpec d p.1 bsz enc)⟩

/-- The global-attention decoding step as the specification words it
(spec §4.5 and claim C2): the embedded input token is concatenated with the
caller-supplied previous-step context vector before entering the recurrent
core once, and the rest of the step is `globalPostSpec`. -/
def globalStepSpec {H : Type} (d : GlobM H) (inp : ℕ → ℕ) (bsz : ℕ) (hid : H)
    (lastContext : Ten2) (enc : Ten3) : GlobOut H :=
  globalPostSpec d bsz enc
    (d.rnn.run (catT2 (dropT2 d.dropF (embT d.embW inp bsz d.emsize)) lastContext) hid)

/-! ## The `LocallyAttentiveDecoder` (decoder.py lines 201–264) -/

/-- The `LocallyAttentiveDecoder` class.  `__init__` (lines 205–234) fixes
bilinear parameters `weight`, `weight_p` (both nhid × nhid) and `weight_v`
(1 × nhid), sets `self.window_size = 3` (line 217), and builds a recurrent
module with input width `config.emsize`. -/
structure LocalM (H : Type) where
  vocab : ℕ
  emsize : ℕ
  nhid : ℕ
  nlayers : ℕ
  weightW : ℕ → ℕ → ℝ
  weightP : ℕ → ℕ → ℝ
  weightV : ℕ → ℝ
  embW : ℕ → ℕ → ℝ
  dropF : (ℕ → ℕ → ℝ) → ℕ → ℕ → ℝ
  attnCombine : LinearM
  outL : LinearM
  rnn : RnnCore H
  ac_in : attnCombine.inF = 2 * nhid
  ac_out : attnCombine.outF = nhid
  out_out : outL.outF = vocab
  rnn_in : rnn.inputSize = emsize
  rnn_hid : rnn.nhid = nhid

/-- What `LocallyAttentiveDecoder.forward` returns:
`(output, hidden, attn_weights)` (line 264). -/
structure LocOut (H : Type) where
  out : Ten2
  hidden : H
  attn : Ten2

/-- Body of the layer loop of `LocallyAttentiveDecoder.forward`
(lines 240–241): `output, hidden = self.rnn(output, hidden)` — no activation
and no dropout inside the loop. -/
def localLoopBody {H : Type} (d : LocalM H) : Ten2 → H → Option (Ten2 × H) :=
  fun x h => d.rnn.call x h

/-- Lines 243–245: the bilinear score, identical in form to the global
variant's. -/
def localScore {H : Type} (d : LocalM H) (output : Ten2) (bsz : ℕ) (enc : Ten3) : Ten2 :=
  ⟨bsz, enc.d2, fun i j =>
    dotR output.cols (output.ent i) fun k => dotR d.nhid (d.weightW k) (enc.ent i j)⟩

/-- Lines 248–252: the predicted aligned position of batch row `i`,
`p_t = sigmoid(w_v · tanh(W_p · outputᵀ)) * source_length`. -/
def ptVal {H : Type} (d : LocalM H) (src : ℕ) (output : Ten2) (i : ℕ) : ℝ :=
  sigmoidR (dotR d.nhid d.weightV fun k =>
    Real.tanh (dotR d.nhid (d.weightP k) (output.ent i))) * src

/-- Lines 254–258: the Gaussian emphasis at source position `j` for batch row
`i`.  `current_s = torch.range(0, L-1, 1)` enumerates `0, …, L-1`;
`denominator = -2 * (self.window_size / 2) * (self.window_size / 2)` with
`window_size = 3` fixed by `__init__` and Python float division, and
`emphasis = exp(nominator / denominator)`. -/
def emphasisAt {H : Type} (d : LocalM H) (src : ℕ) (output : Ten2) (i j : ℕ) : ℝ :=
  Real.exp (((j : ℝ) - ptVal d src output i) ^ 2 / (-2 * ((3 : ℝ) / 2) * ((3 : ℝ) / 2)))

/-- Line 260: `attn_weights = torch.mul(attn_weights, emphasis)` — the
softmax-normalized bilinear scores multiplied elementwise by the emphasis. -/
def localAttn {H : Type} (d : LocalM H) (output : Ten2) (bsz : ℕ) (enc : Ten3) : Ten2 :=
  ⟨bsz, enc.d2, fun i j =>
    (softmaxT (localScore d output bsz enc)).ent i j * emphasisAt d enc.d2 output i j⟩

/-- Line 261: `context_vector = torch.div(torch.bmm(attn_weights.unsqueeze(1),
encoder_outputs), encoder_outputs.size(1))` — the emphasized-weight-weighted
aggregate of encoder outputs divided by the raw source length. -/
def localContext {H : Type} (d : LocalM H) (output : Ten2) (bsz : ℕ) (enc : Ten3) : Ten2 :=
  ⟨bsz, enc.d3, fun i k =>
    (∑ j ∈ Finset.range enc.d2, (localAttn d output bsz enc).ent i j * enc.ent i j k)
      / (enc.d2 : ℝ)⟩

/-- `LocallyAttentiveDecoder.forward` (lines 236–264). -/
def LocalM.forward {H : Type} (d : LocalM H) (inp : ℕ → ℕ) (bsz : ℕ) (hid : H)
    (enc : Ten3) : Option (LocOut H) :=
  (runLayers (localLoopBody d) d.nlayers
      (dropT2 d.dropF (embT d.embW inp bsz d.emsize)) hid).map fun p =>
    ⟨logSoftmaxT (d.outL.apT
        (d.attnCombine.apT (catT2 (localContext d p.1 bsz enc) p.1))),
      p.2, localAttn d p.1 bsz enc⟩

/-! ## Constructor event traces (claim C5)

Each `__init__` allocates its parameter tensors in source order and only then
validates `config.model`; `nn.Dropout` allocates no tensor and is omitted.
A name outside {LSTM, GRU} is looked up in the RNN_TANH/RNN_RELU table and an
unknown name raises ValueError (modelled as the `valueError` event); a known
name allocates the recurrent module. -/

inductive InitEvent where
  | tensorAlloc : String → InitEvent
  | valueError : InitEvent
deriving DecidableEq

/-- The model names accepted by every `__init__`
(decoder.py lines 29 and 34 and their copies). -/
def validModels : List String := ["LSTM", "GRU", "RNN_TANH", "RNN_RELU"]

/-- The tail of every constructor trace: allocate the recurrent module, or
raise ValueError for an unrecognized `config.model`. -/
def rnnTail (model : String) : List InitEvent :=
  if model ∈ validModels then [InitEvent.tensorAlloc "rnn"] else [InitEvent.valueError]

/-- `Decoder.__init__` (lines 20–39): embedding (line 24), out (line 27), then
the model-name check. -/
def decoderInitTrace (model : String) : List InitEvent :=
  [InitEvent.tensorAlloc "embedding", InitEvent.tensorAlloc "out"] ++ rnnTail model

/-- `AttentionDecoder.__init__` (lines 73–94): embedding, attn, attn_combine,
out, then the model-name check. -/
def attnInitTrace (model : String) : List InitEvent :=
  [InitEvent.tensorAlloc "embedding", InitEvent.tensorAlloc "attn",
    InitEvent.tensorAlloc "attn_combine", InitEvent.tensorAlloc "out"] ++ rnnTail model

/-- `GloballyAttentiveDecoder.__init__` (lines 137–162): weight, embedding,
attn_combine, out, then the model-name check. -/
def globalInitTrace (model : String) : List InitEvent :=
  [InitEvent.tensorAlloc "weight", InitEvent.tensorAlloc "embedding",
    InitEvent.tensorAlloc "attn_combine", InitEvent.tensorAlloc "out"] ++ rnnTail model

/-- `LocallyAttentiveDecoder.__init__` (lines 205–234): weight, weight_p,
weight_v, embedding, attn_combine, out, then the model-name check. -/
def localInitTrace (model : String) : List InitEvent :=
  [InitEvent.tensorAlloc "weight", InitEvent.tensorAlloc "weight_p",
    InitEvent.tensorAlloc "weight_v", InitEvent.tensorAlloc "embedding",
    InitEvent.tensorAlloc "attn_combine", InitEvent.tensorAlloc "out"] ++ rnnTail model

/-! ## `init_weights` (claim C4)

`Decoder.init_weights` (lines 50–56) reads `self.rnn_type`, `self.nlayers` and
`self.nhid`; the three copies in the other classes (lines 113–119, 181–187,
266–272) read `self.rnn_type`, `self.n_layers` and `self.hidden_size`.  In
Python, reading an attribute that was never assigned on the object raises
AttributeError.  The attribute names assigned by each `__init__` are recorded
below, and `init_weights` is modelled as: if every attribute it reads was
assigned, build the zero hidden state (a pair of zero tensors when the read
`rnn_type` equals "LSTM", a single zero tensor otherwise); otherwise raise. -/

/-- A zero tensor of shape (nl, b, nh), as produced by
`weight.new(nl, bsz, nh).zero_()`. -/
def zeros3 (nl b nh : ℕ) : Ten3 := ⟨nl, b, nh, fun _ _ _ => 0⟩

/-- Attributes assigned on `self` by `Decoder.__init__` (lines 20–39). -/
def decoderInitAttrs : List String := ["config", "embedding", "drop", "out", "rnn"]

/-- Attributes assigned on `self` by `AttentionDecoder.__init__` (lines 73–94). -/
def attnInitAttrs : List String :=
  ["config", "embedding", "attn", "attn_combine", "drop", "out", "rnn"]

/-- Attributes assigned on `self` by `GloballyAttentiveDecoder.__init__`
(lines 137–162). -/
def globalInitAttrs : List String :=
  ["config", "weight", "embedding", "attn_combine", "drop", "out", "rnn"]

/-- Attributes assigned on `self` by `LocallyAttentiveDecoder.__init__`
(lines 205–234). -/
def localInitAttrs : List String :=
  ["config", "weight", "weight_p", "weight_v", "embedding", "attn_combine",
    "drop", "out", "window_size", "rnn"]

/-- The outcome of `init_weights(bsz)` given the set `attrs` of attributes the
instance actually has, the list `reads` of attribute names the method reads
(`rnn_type` and the layer/width attributes), a hypothetical value `rnnTypeVal`
for `self.rnn_type`, and hypothetical values `nl`/`nh` for the layer-count and
width attributes.  `Sum.inr` is the LSTM pair of zero tensors, `Sum.inl` the
single zero tensor. -/
def initWeightsRun (attrs reads : List String) (rnnTypeVal : String)
    (nl bsz nh : ℕ) : Except String (Ten3 ⊕ Ten3 × Ten3) :=
  if reads.all (fun a => attrs.contains a) then
    if rnnTypeVal = "LSTM" then
      Except.ok (Sum.inr (zeros3 nl bsz nh, zeros3 nl bsz nh))
    else Except.ok (Sum.inl (zeros3 nl bsz nh))
  else Except.error "AttributeError"

/-- The attribute names read by `Decoder.init_weights` (lines 52–56). -/
def decoderInitWeightsReads : List String := ["rnn_type", "nlayers", "nhid"]

/-- The attribute names read by the `init_weights` copies of the three
attention variants (lines 115–119, 183–187, 268–272). -/
def attnInitWeightsReads : List String := ["rnn_type", "n_layers", "hidden_size"]

/-! ## `init_embedding_weights` (claim C8)

`init_embedding_weights` (lines 58–67, with verbatim copies in all four
classes) builds a (len(dictionary), embedding_dim) matrix: row `i` is the
pretrained vector of `dictionary.idx2word[i]` when that word is in
`embeddings_index`, and otherwise `helper.initialize_out_of_vocab_words`
(helper.py lines 111–113), a fresh draw from a zero-mean unit-variance normal
distribution — modelled as an abstract per-row sampler `sampler`.  The matrix
is then copied into the embedding weights; the model returns it. -/
def init_embedding_weights (idx2word : ℕ → String)
    (embIndex : String → Option (ℕ → ℝ)) (sampler : ℕ → ℕ → ℝ) : ℕ → ℕ → ℝ :=
  fun i =>
    match embIndex (idx2word i) with
    | some v => v
    | none => sampler i

/-! ## Concrete instances used by the witnesses and counterexamples -/

/-- A linear module with zero weights and bias. -/
def zeroLin (i o : ℕ) : LinearM := ⟨i, o, fun _ _ => 0, fun _ => 0⟩

/-- A recurrent module whose transition outputs a zero tensor of width `nh`
and leaves the hidden state unchanged. -/
def constRnn (ins nh : ℕ) (H : Type) : RnnCore H :=
  ⟨ins, nh, fun x h => (⟨x.rows, nh, fun _ _ => 0⟩, h), fun _ _ => rfl, fun _ _ => rfl⟩

/-- A recurrent module over tensor-valued hidden states that also emits a
hidden state of the torch shape (nl, batch, nh). -/
def hidRnn (ins nh nl : ℕ) : RnnCore Ten3 :=
  ⟨ins, nh, fun x _ => (⟨x.rows, nh, fun _ _ => 0⟩, ⟨nl, x.rows, nh, fun _ _ _ => 0⟩),
    fun _ _ => rfl, fun _ _ => rfl⟩

/-- A recurrent module whose transition passes the input entries through
unchanged (used to observe what the layer loop feeds into the module). -/
def idRnn (ins nh : ℕ) (H : Type) : RnnCore H :=
  ⟨ins, nh, fun x h => (⟨x.rows, nh, x.ent⟩, h), fun _ _ => rfl, fun _ _ => rfl⟩

/-- A zero 2-D tensor. -/
def zeros2 (r c : ℕ) : Ten2 := ⟨r, c, fun _ _ => 0⟩

/-- The constant token batch 0. -/
def inpW : ℕ → ℕ := fun _ => 0

/-- 1×1×1 zero encoder outputs. -/
def encW : Ten3 := zeros3 1 1 1

/-- A 1-layer zero LSTM-style hidden pair. -/
def hidPairW : Ten3 × Ten3 := (zeros3 1 1 1, zeros3 1 1 1)

/-- A concrete naive attention decoder with all dimensions 1. -/
def attnW : AttnM :=
  ⟨1, 1, 1, 1, 1, fun _ _ => 0, id, zeroLin 2 1, zeroLin 2 1, zeroLin 1 1,
    constRnn 1 1 (Ten3 × Ten3), rfl, rfl, rfl, rfl, rfl, rfl, rfl⟩

def junkAttnOut : AttnOut := ⟨zeros2 0 0, (zeros3 0 0 0, zeros3 0 0 0), zeros2 0 0⟩

/-- The concrete result of `attnW.forward`. -/
def attnWRes : AttnOut := (attnW.forward inpW 1 hidPairW encW).getD junkAttnOut

/-- A concrete global attention decoder with all dimensions 1
(recurrent input width `emsize + nhid = 2`). -/
def globW : GlobM Unit :=
  ⟨1, 1, 1, 1, fun _ _ => 0, fun _ _ => 0, id, zeroLin 2 1, zeroLin 1 1,
    constRnn 2 1 Unit, rfl, rfl, rfl, rfl, rfl⟩

/-- A zero previous-step context of width 1. -/
def lcW : Ten2 := zeros2 1 1

def junkGlobOut : GlobOut Unit := ⟨zeros2 0 0, (), zeros2 0 0, zeros2 0 0⟩

/-- The concrete result of `globW.forward`. -/
def globWRes : GlobOut Unit := (globW.forward inpW 1 () lcW encW).getD junkGlobOut

/-- A concrete local attention decoder with all dimensions 1. -/
def locW : LocalM Unit :=
  ⟨1, 1, 1, 1, fun _ _ => 0, fun _ _ => 0, fun _ => 0, fun _ _ => 0, id,
    zeroLin 2 1, zeroLin 1 1, constRnn 1 1 Unit, rfl, rfl, rfl, rfl, rfl⟩

def junkLocOut : LocOut Unit := ⟨zeros2 0 0, (), zeros2 0 0⟩

/-- The concrete result of `locW.forward`. -/
def locWRes : LocOut Unit := (locW.forward inpW 1 () encW).getD junkLocOut

/-- The no-attention decoder of the specification's end-to-end scenario:
`vocab_size=5`, `embedding_dim=4`, `hidden_dim=6`, `num_layers=1`. -/
def decW : DecoderM Ten3 :=
  ⟨5, 4, 6, 1, fun _ _ => 0, id, zeroLin 6 5, hidRnn 4 6 1, rfl, rfl, rfl, rfl⟩

/-- The token batch `[1, 3]` of the scenario. -/
def inpW2 : ℕ → ℕ := fun i => if i = 0 then 1 else 3

/-- The zero initial hidden state of shape (1, 2, 6). -/
def hidW3 : Ten3 := zeros3 1 2 6

def junkDecOut : DecOut Ten3 := ⟨zeros2 0 0, zeros3 0 0 0⟩

/-- The concrete result of `decW.forward` on the scenario. -/
def decWRes : DecOut Ten3 := (decW.forward inpW2 2 hidW3).getD junkDecOut

/-- A no-attention decoder with `nlayers = 2` and `emsize = 1 ≠ 2 = nhid`. -/
def decX : DecoderM Unit :=
  ⟨1, 1, 2, 2, fun _ _ => 0, id, zeroLin 2 1, constRnn 1 2 Unit, rfl, rfl, rfl, rfl⟩

/-- A naive attention decoder with `nlayers = 2` and `emsize = 1 ≠ 2 = nhid`. -/
def attnX : AttnM :=
  ⟨1, 1, 2, 1, 2, fun _ _ => 0, id, zeroLin 4 1, zeroLin 4 2, zeroLin 2 1,
    constRnn 1 2 (Ten3 × Ten3), rfl, rfl, rfl, rfl, rfl, rfl, rfl⟩

/-- A global attention decoder with `nlayers = 2`, `emsize = 1`, `nhid = 2`
(recurrent input width 3). -/
def globX : GlobM Unit :=
  ⟨1, 1, 2, 2, fun _ _ => 0, fun _ _ => 0, id, zeroLin 4 2, zeroLin 2 1,
    constRnn 3 2 Unit, rfl, rfl, rfl, rfl, rfl⟩

/-- A width-2 zero previous-step context for `globX`. -/
def lcX : Ten2 := zeros2 1 2

/-- A local attention decoder with `nlayers = 2` and `emsize = 1 ≠ 2 = nhid`. -/
def locX : LocalM Unit :=
  ⟨1, 1, 2, 2, fun _ _ => 0, fun _ _ => 0, fun _ => 0, fun _ _ => 0, id,
    zeroLin 4 2, zeroLin 2 1, constRnn 1 2 Unit, rfl, rfl, rfl, rfl, rfl⟩

/-- A local attention decoder whose recurrent transition passes entries
through, used to observe the value the layer loop feeds to the module. -/
def locC6 : LocalM Unit :=
  ⟨1, 1, 1, 1, fun _ _ => 0, fun _ _ => 0, fun _ => 0, fun _ _ => 0, id,
    zeroLin 2 1, zeroLin 1 1, idRnn 1 1 Unit, rfl, rfl, rfl, rfl, rfl⟩

/-- A 1×1 tensor holding the negative value -1 (on which `F.relu` is not the
identity). -/
def negX : Ten2 := ⟨1, 1, fun _ _ => -1⟩

/-- A two-word vocabulary for the embedding-initializer witness. -/
def idx2wW : ℕ → String := fun i => if i = 0 then "alpha" else "beta"

/-- A pretrained table containing only the word "alpha". -/
def embIdxW : String → Option (ℕ → ℝ) :=
  fun s => if s = "alpha" then some (fun _ => 1) else none

/-- First out-of-vocabulary sampler of the witness. -/
def sampA : ℕ → ℕ → ℝ := fun _ _ => 2

/-- Second out-of-vocabulary sampler of the witness. -/
def sampB : ℕ → ℕ → ℝ := fun _ _ => 3

/-- A naive attention decoder whose recurrent transition passes entries
through, used to observe the value the layer loop feeds to the module. -/
def attnC6 : AttnM :=
  ⟨1, 1, 1, 1, 1, fun _ _ => 0, id, zeroLin 2 1, zeroLin 2 1, zeroLin 1 1,
    idRnn 1 1 (Ten3 × Ten3), rfl, rfl, rfl, rfl, rfl, rfl, rfl⟩

/-! ## Helper lemmas -/

theorem softmaxRow_nonneg (n : ℕ) (v : ℕ → ℝ) (j : ℕ) : 0 ≤ softmaxRow n v j :=
  div_nonneg (Real.exp_nonneg _) (Finset.sum_nonneg fun k _ => Real.exp_nonneg _)

theorem expSumPos (n : ℕ) (hn : 0 < n) (v : ℕ → ℝ) :
    0 < ∑ k ∈ Finset.range n, Real.exp (v k) :=
  Finset.sum_pos (fun k _ => Real.exp_pos _) (Finset.nonempty_range_iff.mpr hn.ne')

theorem softmaxRow_sum_one (n : ℕ) (hn : 0 < n) (v : ℕ → ℝ) :
    ∑ j ∈ Finset.range n, softmaxRow n v j = 1 := by
  have h := expSumPos n hn v
  simp only [softmaxRow]
  rw [← Finset.sum_div, div_self h.ne']

theorem logSoftmaxT_exp_sum (x : Ten2) (hc : 0 < x.cols) (i : ℕ) :
    ∑ j ∈ Finset.range x.cols, Real.exp ((logSoftmaxT x).ent i j) = 1 := by
  have h := expSumPos x.cols hc (x.ent i)
  simp only [logSoftmaxT, Real.exp_sub, Real.exp_log h]
  rw [← Finset.sum_div, div_self h.ne']

theorem sigmoidR_nonneg (x : ℝ) : 0 ≤ sigmoidR x := by
  unfold sigmoidR
  positivity

theorem sigmoidR_lt_one (x : ℝ) : sigmoidR x < 1 := by
  unfold sigmoidR
  rw [div_lt_one (by positivity)]
  linarith [Real.exp_pos (-x)]

theorem runLayers_succ {H : Type} (step : Ten2 → H → Option (Ten2 × H)) (n : ℕ)
    (x : Ten2) (h : H) :
    runLayers step (n + 1) x h = (step x h).bind fun p => runLayers step n p.1 p.2 := rfl

theorem runLayers_one {H : Type} (step : Ten2 → H → Option (Ten2 × H)) (x : Ten2) (h : H) :
    runLayers step 1 x h = step x h := by
  cases hs : step x h with
  | none => simp [runLayers, hs]
  | some p => simp [runLayers, hs]

theorem RnnCore.call_pos {H : Type} (r : RnnCore H) (x : Ten2) (h : H)
    (hx : x.cols = r.inputSize) : r.call x h = some (r.run x h) := by
  simp [RnnCore.call, hx]

theorem RnnCore.call_neg {H : Type} (r : RnnCore H) (x : Ten2) (h : H)
    (hx : x.cols ≠ r.inputSize) : r.call x h = none := by
  simp [RnnCore.call, hx]

theorem runLayers_none_of_first {H : Type} (step : Ten2 → H → Option (Ten2 × H)) (n : ℕ)
    (x : Ten2) (h : H) (hn : 0 < n) (hs : step x h = none) : runLayers step n x h = none := by
  obtain ⟨k, rfl⟩ : ∃ k, n = k + 1 := ⟨n - 1, by omega⟩
  rw [runLayers_succ, hs]
  rfl

theorem runLayers_none_of_second {H : Type} (step : Ten2 → H → Option (Ten2 × H)) (k : ℕ)
    (x : Ten2) (h : H) (y : Ten2) (h2 : H) (h1 : step x h = some (y, h2))
    (hs : step y h2 = none) : runLayers step (k + 2) x h = none := by
  rw [runLayers_succ, h1]
  simp only [Option.some_bind]
  exact runLayers_none_of_first step (k + 1) y h2 (by omega) hs

theorem decoderLoopBody_some {H : Type} (d : DecoderM H) (x : Ten2) (h : H)
    (hx : x.cols = d.rnn.inputSize) :
    decoderLoopBody d x h
      = some (dropT2 d.dropF (d.rnn.run x h).1, (d.rnn.run x h).2) := by
  simp [decoderLoopBody, RnnCore.call_pos _ _ _ hx]

theorem decoderLoopBody_none {H : Type} (d : DecoderM H) (x : Ten2) (h : H)
    (hx : x.cols ≠ d.rnn.inputSize) : decoderLoopBody d x h = none := by
  simp [decoderLoopBody, RnnCore.call_neg _ _ _ hx]

theorem attnLoopBody_none (d : AttnM) (x : Ten2) (h : Ten3 × Ten3)
    (hx : x.cols ≠ d.rnn.inputSize) : attnLoopBody d x h = none := by
  have : (reluT2 x).cols ≠ d.rnn.inputSize := hx
  simp [attnLoopBody, RnnCore.call_neg _ _ _ this]

/-! ## Claim theorems -/

/-- C4: the claim states that `init_weights(b)` returns an all-zero hidden
state of shape (num_layers, b, hidden_dim) (or the LSTM pair of two such
tensors).  The code instead raises AttributeError on every call of every
variant: the very first attribute it reads, `self.rnn_type` (and likewise
`self.nlayers`/`self.nhid` resp. `self.n_layers`/`self.hidden_size`), is never
assigned by any `__init__`.  This theorem evaluates the modelled method on the
attribute sets each constructor actually assigns: the result is the
AttributeError for every batch size and every hypothetical attribute value.
The final conjunct shows the intent the claim describes: had the read
attributes been assigned, the result would be the zero hidden state (paired
for the LSTM). -/
theorem c4_init_weights_raises_attribute_error (rv : String) (nl bsz nh : ℕ) :
    initWeightsRun decoderInitAttrs decoderInitWeightsReads rv nl bsz nh
        = Except.error "AttributeError" ∧
    initWeightsRun attnInitAttrs attnInitWeightsReads rv nl bsz nh
        = Except.error "AttributeError" ∧
    initWeightsRun globalInitAttrs attnInitWeightsReads rv nl bsz nh
        = Except.error "AttributeError" ∧
    initWeightsRun localInitAttrs attnInitWeightsReads rv nl bsz nh
        = Except.error "AttributeError" ∧
    initWeightsRun (decoderInitAttrs ++ decoderInitWeightsReads)
        decoderInitWeightsReads "LSTM" nl bsz nh
        = Except.ok (Sum.inr (zeros3 nl bsz nh, zeros3 nl bsz nh)) ∧
    initWeightsRun (decoderInitAttrs ++ decoderInitWeightsReads)
        decoderInitWeightsReads "GRU" nl bsz nh
        = Except.ok (Sum.inl (zeros3 nl bsz nh)) := by
  refine ⟨?_, ?_, ?_, ?_, ?_, ?_⟩ <;>
    simp [initWeightsRun, decoderInitAttrs, attnInitAttrs, globalInitAttrs,
      localInitAttrs, decoderInitWeightsReads, attnInitWeightsReads]

/-- C5 counterexample: constructing the no-attention `Decoder` with the
unrecognized model name "BAD" does raise the configuration error, but a tensor
allocation (the embedding) strictly precedes the failure in the constructor's
event trace — refuting "this failure occurs before any tensors are
allocated". -/
theorem c5_counterexample :
    InitEvent.valueError ∈ decoderInitTrace "BAD" ∧
    InitEvent.tensorAlloc "embedding" ∈
      (decoderInitTrace "BAD").takeWhile (fun e => e ≠ InitEvent.valueError) := by
  decide

/-- C5 amended: for every decoder variant, construction raises ValueError
exactly when the model name is outside {LSTM, GRU, RNN_TANH, RNN_RELU} (names
inside the set raise nothing), but for invalid names the failure occurs only
after the embedding, projection and attention parameter tensors have been
allocated — immediately before the recurrent module would be allocated — not
before any tensor allocation. -/
theorem c5_config_error_after_allocations (m : String) :
    (InitEvent.valueError ∈ decoderInitTrace m ↔ m ∉ validModels) ∧
    (InitEvent.valueError ∈ attnInitTrace m ↔ m ∉ validModels) ∧
    (InitEvent.valueError ∈ globalInitTrace m ↔ m ∉ validModels) ∧
    (InitEvent.valueError ∈ localInitTrace m ↔ m ∉ validModels) ∧
    (m ∉ validModels →
      decoderInitTrace m = [InitEvent.tensorAlloc "embedding",
        InitEvent.tensorAlloc "out", InitEvent.valueError] ∧
      attnInitTrace m = [InitEvent.tensorAlloc "embedding", InitEvent.tensorAlloc "attn",
        InitEvent.tensorAlloc "attn_combine", InitEvent.tensorAlloc "out",
        InitEvent.valueError] ∧
      globalInitTrace m = [InitEvent.tensorAlloc "weight", InitEvent.tensorAlloc "embedding",
        InitEvent.tensorAlloc "attn_combine", InitEvent.tensorAlloc "out",
        InitEvent.valueError] ∧
      localInitTrace m = [InitEvent.tensorAlloc "weight", InitEvent.tensorAlloc "weight_p",
        InitEvent.tensorAlloc "weight_v", InitEvent.tensorAlloc "embedding",
        InitEvent.tensorAlloc "attn_combine", InitEvent.tensorAlloc "out",
        InitEvent.valueError]) := by
  by_cases hm : m ∈ validModels <;>
    simp [decoderInitTrace, attnInitTrace, globalInitTrace, localInitTrace, rnnTail, hm]

/-- Witness for the amended C5 theorem at the concrete invalid name "BAD". -/
theorem c5_config_error_after_allocations_witness :
    ("BAD" ∉ validModels) ∧
    InitEvent.valueError ∈ decoderInitTrace "BAD" ∧
    decoderInitTrace "BAD" = [InitEvent.tensorAlloc "embedding",
      InitEvent.tensorAlloc "out", InitEvent.valueError] := by
  have h := c5_config_error_after_allocations "BAD"
  have hb : "BAD" ∉ validModels := by decide
  exact ⟨hb, h.1.mpr hb, (h.2.2.2.2 hb).1⟩

/-- C6 counterexample: the local/windowed-attention decoder's layer-loop body
(decoder.py lines 240–241) does not apply a rectified-linear activation before
the recurrent layer: on a concrete instance whose recurrent transition passes
entries through, feeding the entry -1 yields -1, whereas the relu'd call
yields 0. -/
theorem c6_counterexample :
    localLoopBody locC6 negX () ≠ locC6.rnn.call (reluT2 negX) () := by
  intro h
  have h2 := congrArg (fun o => ((o.getD (zeros2 0 0, ())).1.ent 0 0)) h
  simp [localLoopBody, locC6, idRnn, RnnCore.call, reluT2, negX, zeros2] at h2

/-- C6 amended: it is the NAIVE attention decoder (`AttentionDecoder.forward`,
lines 105–108), not the local/windowed one, that applies a rectified-linear
activation to its input before each recurrent layer; the no-attention, global
and local variants pass the loop input to the recurrent module unchanged.  The
last two conjuncts exhibit the behavioral difference on entry value -1 under
an entry-preserving recurrent transition: the naive variant's module receives
the relu image 0 while the local variant's receives -1. -/
theorem c6_relu_only_in_naive_attention :
    (∀ (d : AttnM) (x : Ten2) (h : Ten3 × Ten3),
      attnLoopBody d x h
        = (d.rnn.call (reluT2 x) h).map fun p => (dropT2 d.dropF p.1, p.2)) ∧
    (∀ (H : Type) (d : DecoderM H) (x : Ten2) (h : H),
      decoderLoopBody d x h = (d.rnn.call x h).map fun p => (dropT2 d.dropF p.1, p.2)) ∧
    (∀ (H : Type) (d : GlobM H) (x : Ten2) (h : H),
      globalLoopBody d x h = d.rnn.call x h) ∧
    (∀ (H : Type) (d : LocalM H) (x : Ten2) (h : H),
      localLoopBody d x h = d.rnn.call x h) ∧
    ((attnLoopBody attnC6 negX hidPairW).map (fun p => p.1.ent 0 0) = some 0) ∧
    ((localLoopBody locC6 negX ()).map (fun p => p.1.ent 0 0) = some (-1)) := by
  refine ⟨fun _ _ _ => rfl, fun _ _ _ _ => rfl, fun _ _ _ _ => rfl, fun _ _ _ _ => rfl,
    ?_, ?_⟩
  · simp [attnLoopBody, attnC6, idRnn, RnnCore.call, reluT2, negX, dropT2]
  · simp [localLoopBody, locC6, idRnn, RnnCore.call, negX]

/-- C7: for every batch row `i` of every forward call of the local/windowed
attention decoder, the predicted aligned position
`p_t = sigmoid(w_v · tanh(W_p · outputᵀ)) * source_length` (decoder.py lines
248–252, the `ptVal` used by `LocalM.forward`) lies in [0, source_length),
for any recurrent output — the sigmoid squashes into (0, 1). -/
theorem c7_predicted_position_in_range {H : Type} (d : LocalM H) (src : ℕ)
    (output : Ten2) (i : ℕ) (hsrc : 0 < src) :
    0 ≤ ptVal d src output i ∧ ptVal d src output i < src := by
  unfold ptVal
  constructor
  · exact mul_nonneg (sigmoidR_nonneg _) (Nat.cast_nonneg _)
  · calc sigmoidR _ * (src : ℝ) < 1 * (src : ℝ) :=
        mul_lt_mul_of_pos_right (sigmoidR_lt_one _) (by exact_mod_cast hsrc)
    _ = (src : ℝ) := one_mul _

/-- Witness for C7 at a concrete decoder, output and source length. -/
theorem c7_predicted_position_in_range_witness :
    0 < 1 ∧ (0 ≤ ptVal locW 1 (zeros2 1 1) 0 ∧ ptVal locW 1 (zeros2 1 1) 0 < 1) := by
  refine ⟨by decide, ?_⟩
  have h := c7_predicted_position_in_range locW 1 (zeros2 1 1) 0 (by decide)
  exact_mod_cast h

/-- C8: re-running `init_embedding_weights` (decoder.py lines 58–67) with the
same vocabulary and the same pretrained table yields, for every token id whose
word is in the table, the identical row both times, equal to the pretrained
vector; a token id whose word is absent receives the respective run's fallback
draw (modelled as the abstract sampler standing for
`helper.initialize_out_of_vocab_words`, a zero-mean unit-variance normal draw)
and no error is raised. -/
theorem c8_embedding_init_deterministic (idx2word : ℕ → String)
    (embIndex : String → Option (ℕ → ℝ)) (s1 s2 : ℕ → ℕ → ℝ) (i : ℕ) :
    (∀ v, embIndex (idx2word i) = some v →
      init_embedding_weights idx2word embIndex s1 i = v ∧
      init_embedding_weights idx2word embIndex s2 i = v) ∧
    (embIndex (idx2word i) = none →
      init_embedding_weights idx2word embIndex s1 i = s1 i ∧
      init_embedding_weights idx2word embIndex s2 i = s2 i) := by
  unfold init_embedding_weights
  constructor
  · intro v hv
    rw [hv]
    exact ⟨rfl, rfl⟩
  · intro hn
    rw [hn]
    exact ⟨rfl, rfl⟩

/-- Witness for C8: a concrete two-word vocabulary whose word "alpha" is in
the pretrained table and whose word "beta" is not, with two distinct fallback
samplers standing for the two runs. -/
theorem c8_embedding_init_deterministic_witness :
    (embIdxW (idx2wW 0) = some (fun _ => (1 : ℝ)) ∧
      init_embedding_weights idx2wW embIdxW sampA 0 = (fun _ => (1 : ℝ)) ∧
      init_embedding_weights idx2wW embIdxW sampB 0 = fun _ => (1 : ℝ)) ∧
    (embIdxW (idx2wW 1) = none ∧
      init_embedding_weights idx2wW embIdxW sampA 1 = sampA 1 ∧
      init_embedding_weights idx2wW embIdxW sampB 1 = sampB 1) := by
  have h0 : embIdxW (idx2wW 0) = some (fun _ => (1 : ℝ)) := rfl
  have h1 : embIdxW (idx2wW 1) = none := rfl
  have hin := (c8_embedding_init_deterministic idx2wW embIdxW sampA sampB 0).1 _ h0
  have hout := (c8_embedding_init_deterministic idx2wW embIdxW sampA sampB 1).2 h1
  exact ⟨⟨h0, hin.1, hin.2⟩, ⟨h1, hout.1, hout.2⟩⟩

theorem dec_forward_dest {H : Type} (d : DecoderM H) (inp : ℕ → ℕ) (bsz : ℕ) (hid : H)
    (r : DecOut H) (hf : d.forward inp bsz hid = some r) :
    ∃ p : Ten2 × H,
      runLayers (decoderLoopBody d) d.nlayers
        (dropT2 d.dropF (embT d.embW inp bsz d.emsize)) hid = some p ∧
      r = ⟨logSoftmaxT (d.outL.apT p.1), p.2⟩ := by
  unfold DecoderM.forward at hf
  simp only [Option.map_eq_some'] at hf
  obtain ⟨p, hp, hpr⟩ := hf
  exact ⟨p, hp, hpr.symm⟩

theorem local_forward_dest {H : Type} (d : LocalM H) (inp : ℕ → ℕ) (bsz : ℕ) (hid : H)
    (enc : Ten3) (r : LocOut H) (hf : d.forward inp bsz hid enc = some r) :
    ∃ p : Ten2 × H,
      runLayers (localLoopBody d) d.nlayers
        (dropT2 d.dropF (embT d.embW inp bsz d.emsize)) hid = some p ∧
      r = ⟨logSoftmaxT (d.outL.apT
            (d.attnCombine.apT (catT2 (localContext d p.1 bsz enc) p.1))),
          p.2, localAttn d p.1 bsz enc⟩ := by
  unfold LocalM.forward at hf
  simp only [Option.map_eq_some'] at hf
  obtain ⟨p, hp, hpr⟩ := hf
  exact ⟨p, hp, hpr.symm⟩

theorem glob_forward_attn {H : Type} (d : GlobM H) (inp : ℕ → ℕ) (bsz : ℕ) (hid : H)
    (lc : Ten2) (enc : Ten3) (r : GlobOut H)
    (hf : d.forward inp bsz hid lc enc = some r) :
    ∃ s : Ten2, s.cols = enc.d2 ∧ r.attn = softmaxT s := by
  unfold GlobM.forward at hf
  simp only [Option.map_eq_some'] at hf
  obtain ⟨p, _, hpr⟩ := hf
  exact ⟨globalScore d p.1 bsz enc, rfl, by subst hpr; rfl⟩

theorem attn_forward_attn (d : AttnM) (inp : ℕ → ℕ) (bsz : ℕ) (hid : Ten3 × Ten3)
    (enc : Ten3) (r : AttnOut) (hf : d.forward inp bsz hid enc = some r) :
    ∃ s : Ten2, s.cols = d.attnL.outF ∧ r.attn = softmaxT s := by
  unfold AttnM.forward at hf
  simp only [] at hf
  split at hf
  · simp only [Option.map_eq_some'] at hf
    obtain ⟨p, _, hpr⟩ := hf
    exact ⟨d.attnL.apT (catT2 (dropT2 d.dropF (embT d.embW inp bsz d.emsize))
      ⟨hid.1.d2, hid.1.d3, fun i k => hid.1.ent (hid.1.d1 - 1) i k⟩), rfl, by rw [← hpr]⟩
  · cases hf

theorem runLayersDecShape (d : DecoderM Ten3)
    (hhid : ∀ x h, shape3 ((d.rnn.run x h).2) = (d.nlayers, x.rows, d.nhid)) (n : ℕ) :
    ∀ (x : Ten2) (h : Ten3) (p : Ten2 × Ten3),
      runLayers (decoderLoopBody d) n x h = some p →
      p.1.rows = x.rows ∧
        (shape3 p.2 = shape3 h ∨ shape3 p.2 = (d.nlayers, x.rows, d.nhid)) := by
  induction n with
  | zero =>
    intro x h p hp
    have hxp : p = (x, h) := by simpa [runLayers] using hp.symm
    subst hxp
    exact ⟨rfl, Or.inl rfl⟩
  | succ n ih =>
    intro x h p hp
    rw [runLayers_succ] at hp
    cases hs : decoderLoopBody d x h with
    | none => rw [hs] at hp; cases hp
    | some q =>
      rw [hs] at hp
      simp only [Option.some_bind] at hp
      obtain ⟨h1, h2⟩ := ih q.1 q.2 p hp
      rw [show decoderLoopBody d x h
          = (d.rnn.call x h).map (fun w => (dropT2 d.dropF w.1, w.2)) from rfl] at hs
      simp only [Option.map_eq_some'] at hs
      obtain ⟨w, hw, hwq⟩ := hs
      have hwrun : w = d.rnn.run x h := by
        unfold RnnCore.call at hw
        split at hw
        · injection hw with hw'
          exact hw'.symm
        · cases hw
      subst hwrun
      subst hwq
      constructor
      · exact h1.trans (d.rnn.run_rows x h)
      · rcases h2 with h2 | h2
        · right
          exact h2.trans (hhid x h)
        · right
          have hrw : (dropT2 d.dropF (d.rnn.run x h).1, (d.rnn.run x h).2).1.rows = x.rows :=
            d.rnn.run_rows x h
          rw [hrw] at h2
          exact h2

/-- C9: whenever `Decoder.forward` returns on a token batch of size `b` with a
correctly shaped hidden state (and the torch contract that the recurrent
module emits hidden states of shape (nlayers, batch, nhid) holds), the
returned log-probability tensor has shape (b, vocab), every row of it sums to
1 after elementwise exponentiation (exactly, over the reals), and the updated
hidden state has shape (nlayers, b, nhid). -/
theorem c9_decoder_forward_contract (d : DecoderM Ten3) (inp : ℕ → ℕ) (bsz : ℕ)
    (hid : Ten3) (r : DecOut Ten3)
    (hv : 0 < d.vocab)
    (hhid : ∀ x h, shape3 ((d.rnn.run x h).2) = (d.nlayers, x.rows, d.nhid))
    (hh0 : shape3 hid = (d.nlayers, bsz, d.nhid))
    (hf : d.forward inp bsz hid = some r) :
    r.out.rows = bsz ∧ r.out.cols = d.vocab ∧
    (∀ i, ∑ j ∈ Finset.range d.vocab, Real.exp (r.out.ent i j) = 1) ∧
    shape3 r.hidden = (d.nlayers, bsz, d.nhid) := by
  obtain ⟨p, hp, hr⟩ := dec_forward_dest d inp bsz hid r hf
  have hx0 : (dropT2 d.dropF (embT d.embW inp bsz d.emsize)).rows = bsz := rfl
  obtain ⟨h1, h2⟩ := runLayersDecShape d hhid d.nlayers _ hid p hp
  subst hr
  refine ⟨h1.trans hx0, d.out_out, ?_, ?_⟩
  · intro i
    have hc : (d.outL.apT p.1).cols = d.vocab := d.out_out
    rw [← hc]
    exact logSoftmaxT_exp_sum _ (lt_of_lt_of_eq hv hc.symm) i
  · rcases h2 with h2 | h2
    · exact h2.trans hh0
    · exact h2.trans (by rw [hx0])

/-- Witness for C9 on the specification's end-to-end scenario: vocab 5,
embedding width 4, hidden width 6, one layer, batch 2, token batch [1, 3],
zero initial hidden state of shape (1, 2, 6). -/
theorem c9_decoder_forward_contract_witness :
    0 < decW.vocab ∧
    (∀ x h, shape3 ((decW.rnn.run x h).2) = (decW.nlayers, x.rows, decW.nhid)) ∧
    shape3 hidW3 = (decW.nlayers, 2, decW.nhid) ∧
    decW.forward inpW2 2 hidW3 = some decWRes ∧
    (decWRes.out.rows = 2 ∧ decWRes.out.cols = decW.vocab ∧
      (∀ i, ∑ j ∈ Finset.range decW.vocab, Real.exp (decWRes.out.ent i j) = 1) ∧
      shape3 decWRes.hidden = (decW.nlayers, 2, decW.nhid)) := by
  have hf : decW.forward inpW2 2 hidW3 = some decWRes := rfl
  exact ⟨by decide, fun x h => rfl, rfl, hf,
    c9_decoder_forward_contract decW inpW2 2 hidW3 decWRes (by decide)
      (fun x h => rfl) rfl hf⟩

/-- C10: every `forward` re-applies the whole multi-layer recurrent module
`nlayers` times, so with `nlayers ≥ 2` the second iteration feeds the
`nhid`-wide output of the first back into a module whose input width was fixed
at construction; the call therefore fails with a shape mismatch (returns
`none`) whenever that constructed width differs from `nhid` — always for the
global variant (constructed width `emsize + nhid`), and whenever
`emsize ≠ nhid` for the other three variants. -/
theorem c10_relooping_shape_mismatch :
    (∀ (H : Type) (d : DecoderM H) (inp : ℕ → ℕ) (bsz : ℕ) (hid : H),
      2 ≤ d.nlayers → d.emsize ≠ d.nhid → d.forward inp bsz hid = none) ∧
    (∀ (d : AttnM) (inp : ℕ → ℕ) (bsz : ℕ) (hid : Ten3 × Ten3) (enc : Ten3),
      2 ≤ d.nlayers → d.emsize ≠ d.nhid → d.forward inp bsz hid enc = none) ∧
    (∀ (H : Type) (d : GlobM H) (inp : ℕ → ℕ) (bsz : ℕ) (hid : H) (lc : Ten2)
      (enc : Ten3),
      2 ≤ d.nlayers → 0 < d.emsize → d.forward inp bsz hid lc enc = none) ∧
    (∀ (H : Type) (d : LocalM H) (inp : ℕ → ℕ) (bsz : ℕ) (hid : H) (enc : Ten3),
      2 ≤ d.nlayers → d.emsize ≠ d.nhid → d.forward inp bsz hid enc = none) := by
  refine ⟨?_, ?_, ?_, ?_⟩
  · intro Hty d inp bsz hid hl hne
    obtain ⟨k, hk⟩ : ∃ k, d.nlayers = k + 2 := ⟨d.nlayers - 2, by omega⟩
    unfold DecoderM.forward
    rw [hk]
    have hx0 : (dropT2 d.dropF (embT d.embW inp bsz d.emsize)).cols = d.rnn.inputSize := by
      rw [d.rnn_in]
      rfl
    have hstep1 := decoderLoopBody_some d (dropT2 d.dropF (embT d.embW inp bsz d.emsize))
      hid hx0
    have hy : (dropT2 d.dropF
        (d.rnn.run (dropT2 d.dropF (embT d.embW inp bsz d.emsize)) hid).1).cols
        ≠ d.rnn.inputSize := by
      show (d.rnn.run (dropT2 d.dropF (embT d.embW inp bsz d.emsize)) hid).1.cols
        ≠ d.rnn.inputSize
      rw [d.rnn.run_cols, d.rnn_hid, d.rnn_in]
      exact hne.symm
    have hstep2 := decoderLoopBody_none d _
      ((d.rnn.run (dropT2 d.dropF (embT d.embW inp bsz d.emsize)) hid).2) hy
    rw [runLayers_none_of_second _ k _ _ _ _ hstep1 hstep2]
    rfl
  · intro d inp bsz hid enc hl hne
    simp only [AttnM.forward]
    split
    · have hX : (d.attnCombine.apT (catT2 (dropT2 d.dropF (embT d.embW inp bsz d.emsize))
          ⟨bsz, enc.d3, fun i k =>
            ∑ j ∈ Finset.range enc.d2,
              (softmaxT (d.attnL.apT (catT2 (dropT2 d.dropF (embT d.embW inp bsz d.emsize))
                ⟨hid.1.d2, hid.1.d3, fun i k => hid.1.ent (hid.1.d1 - 1) i k⟩))).ent i j
                * enc.ent i j k⟩)).cols ≠ d.rnn.inputSize := by
        show d.attnCombine.outF ≠ d.rnn.inputSize
        rw [d.ac_out, d.rnn_in]
        exact hne.symm
      rw [runLayers_none_of_first _ _ _ _ (by omega) (attnLoopBody_none d _ hid hX)]
      rfl
    · rfl
  · intro Hty d inp bsz hid lc enc hl hem
    obtain ⟨k, hk⟩ : ∃ k, d.nlayers = k + 2 := ⟨d.nlayers - 2, by omega⟩
    simp only [GlobM.forward]
    rw [hk]
    by_cases hx0 : (catT2 (dropT2 d.dropF (embT d.embW inp bsz d.emsize)) lc).cols
        = d.rnn.inputSize
    · have hstep1 : globalLoopBody d
          (catT2 (dropT2 d.dropF (embT d.embW inp bsz d.emsize)) lc) hid
          = some ((d.rnn.run (catT2 (dropT2 d.dropF (embT d.embW inp bsz d.emsize)) lc)
              hid).1,
            (d.rnn.run (catT2 (dropT2 d.dropF (embT d.embW inp bsz d.emsize)) lc) hid).2) :=
        RnnCore.call_pos _ _ _ hx0
      have hy : (d.rnn.run (catT2 (dropT2 d.dropF (embT d.embW inp bsz d.emsize)) lc)
          hid).1.cols ≠ d.rnn.inputSize := by
        rw [d.rnn.run_cols, d.rnn_hid, d.rnn_in]
        omega
      have hstep2 : globalLoopBody d
          (d.rnn.run (catT2 (dropT2 d.dropF (embT d.embW inp bsz d.emsize)) lc) hid).1
          (d.rnn.run (catT2 (dropT2 d.dropF (embT d.embW inp bsz d.emsize)) lc) hid).2
          = none :=
        RnnCore.call_neg _ _ _ hy
      rw [runLayers_none_of_second _ k _ _ _ _ hstep1 hstep2]
      rfl
    · have hstep1 : globalLoopBody d
          (catT2 (dropT2 d.dropF (embT d.embW inp bsz d.emsize)) lc) hid = none :=
        RnnCore.call_neg _ _ _ hx0
      rw [runLayers_none_of_first _ _ _ _ (by omega) hstep1]
      rfl
  · intro Hty d inp bsz hid enc hl hne
    obtain ⟨k, hk⟩ : ∃ k, d.nlayers = k + 2 := ⟨d.nlayers - 2, by omega⟩
    unfold LocalM.forward
    rw [hk]
    have hx0 : (dropT2 d.dropF (embT d.embW inp bsz d.emsize)).cols = d.rnn.inputSize := by
      rw [d.rnn_in]
      rfl
    have hstep1 : localLoopBody d (dropT2 d.dropF (embT d.embW inp bsz d.emsize)) hid
        = some ((d.rnn.run (dropT2 d.dropF (embT d.embW inp bsz d.emsize)) hid).1,
          (d.rnn.run (dropT2 d.dropF (embT d.embW inp bsz d.emsize)) hid).2) :=
      RnnCore.call_pos _ _ _ hx0
    have hy : (d.rnn.run (dropT2 d.dropF (embT d.embW inp bsz d.emsize)) hid).1.cols
        ≠ d.rnn.inputSize := by
      rw [d.rnn.run_cols, d.rnn_hid, d.rnn_in]
      exact hne.symm
    have hstep2 : localLoopBody d
        (d.rnn.run (dropT2 d.dropF (embT d.embW inp bsz d.emsize)) hid).1
        (d.rnn.run (dropT2 d.dropF (embT d.embW inp bsz d.emsize)) hid).2 = none :=
      RnnCore.call_neg _ _ _ hy
    rw [runLayers_none_of_second _ k _ _ _ _ hstep1 hstep2]
    rfl

/-- Witness for C10 on concrete two-layer decoders with `emsize = 1` and
`nhid = 2`. -/
theorem c10_relooping_shape_mismatch_witness :
    (2 ≤ decX.nlayers ∧ decX.emsize ≠ decX.nhid ∧ decX.forward inpW 1 () = none) ∧
    (2 ≤ attnX.nlayers ∧ attnX.emsize ≠ attnX.nhid ∧
      attnX.forward inpW 1 hidPairW encW = none) ∧
    (2 ≤ globX.nlayers ∧ 0 < globX.emsize ∧
      globX.forward inpW 1 () lcX encW = none) ∧
    (2 ≤ locX.nlayers ∧ locX.emsize ≠ locX.nhid ∧ locX.forward inpW 1 () encW = none) :=
  ⟨⟨by decide, by decide,
      c10_relooping_shape_mismatch.1 Unit decX inpW 1 () (by decide) (by decide)⟩,
    ⟨by decide, by decide,
      c10_relooping_shape_mismatch.2.1 attnX inpW 1 hidPairW encW (by decide) (by decide)⟩,
    ⟨by decide, by decide,
      c10_relooping_shape_mismatch.2.2.1 Unit globX inpW 1 () lcX encW (by decide)
        (by decide)⟩,
    ⟨by decide, by decide,
      c10_relooping_shape_mismatch.2.2.2 Unit locX inpW 1 () encW (by decide) (by decide)⟩⟩

/-- C1: for every returning forward call, the naive attention decoder's and
the global attention decoder's attention weights are non-negative and sum
exactly to 1 per batch row (over `max_sent_length` scores resp. over the
source positions), and the local/windowed decoder's post-emphasis weights are
non-negative for every batch row and source position. -/
theorem c1_attention_weights_distribution :
    (∀ (d : AttnM) (inp : ℕ → ℕ) (bsz : ℕ) (hid : Ten3 × Ten3) (enc : Ten3)
      (r : AttnOut), 0 < d.maxSentLength → d.forward inp bsz hid enc = some r →
        (∀ i j, 0 ≤ r.attn.ent i j) ∧
        ∀ i, ∑ j ∈ Finset.range d.maxSentLength, r.attn.ent i j = 1) ∧
    (∀ (H : Type) (d : GlobM H) (inp : ℕ → ℕ) (bsz : ℕ) (hid : H) (lc : Ten2)
      (enc : Ten3) (r : GlobOut H),
      0 < enc.d2 → d.forward inp bsz hid lc enc = some r →
        (∀ i j, 0 ≤ r.attn.ent i j) ∧
        ∀ i, ∑ j ∈ Finset.range enc.d2, r.attn.ent i j = 1) ∧
    (∀ (H : Type) (d : LocalM H) (inp : ℕ → ℕ) (bsz : ℕ) (hid : H) (enc : Ten3)
      (r : LocOut H), d.forward inp bsz hid enc = some r →
        ∀ i j, 0 ≤ r.attn.ent i j) := by
  refine ⟨?_, ?_, ?_⟩
  · intro d inp bsz hid enc r hmax hf
    obtain ⟨s, hs, hr⟩ := attn_forward_attn d inp bsz hid enc r hf
    rw [hr]
    constructor
    · intro i j
      exact softmaxRow_nonneg _ _ _
    · intro i
      have hcols : s.cols = d.maxSentLength := hs.trans d.attn_out
      rw [← hcols]
      exact softmaxRow_sum_one s.cols (lt_of_lt_of_eq hmax hcols.symm) (s.ent i)
  · intro Hty d inp bsz hid lc enc r hsrc hf
    obtain ⟨s, hs, hr⟩ := glob_forward_attn d inp bsz hid lc enc r hf
    rw [hr]
    constructor
    · intro i j
      exact softmaxRow_nonneg _ _ _
    · intro i
      rw [← hs]
      exact softmaxRow_sum_one s.cols (lt_of_lt_of_eq hsrc hs.symm) (s.ent i)
  · intro Hty d inp bsz hid enc r hf i j
    obtain ⟨p, _, hr⟩ := local_forward_dest d inp bsz hid enc r hf
    subst hr
    exact mul_nonneg (softmaxRow_nonneg _ _ _) (Real.exp_nonneg _)

/-- Witness for C1: concrete one-layer instances of all three attention
variants whose forward calls return. -/
theorem c1_attention_weights_distribution_witness :
    (0 < attnW.maxSentLength ∧ attnW.forward inpW 1 hidPairW encW = some attnWRes ∧
      (∀ i j, 0 ≤ attnWRes.attn.ent i j) ∧
      ∀ i, ∑ j ∈ Finset.range attnW.maxSentLength, attnWRes.attn.ent i j = 1) ∧
    (0 < encW.d2 ∧ globW.forward inpW 1 () lcW encW = some globWRes ∧
      (∀ i j, 0 ≤ globWRes.attn.ent i j) ∧
      ∀ i, ∑ j ∈ Finset.range encW.d2, globWRes.attn.ent i j = 1) ∧
    (locW.forward inpW 1 () encW = some locWRes ∧
      ∀ i j, 0 ≤ locWRes.attn.ent i j) := by
  have hA : attnW.forward inpW 1 hidPairW encW = some attnWRes := rfl
  have hG : globW.forward inpW 1 () lcW encW = some globWRes := rfl
  have hL : locW.forward inpW 1 () encW = some locWRes := rfl
  have h1 := c1_attention_weights_distribution.1 attnW inpW 1 hidPairW encW attnWRes
    (by decide) hA
  have h2 := c1_attention_weights_distribution.2.1 Unit globW inpW 1 () lcW encW globWRes
    (by decide) hG
  have h3 := c1_attention_weights_distribution.2.2 Unit locW inpW 1 () encW locWRes hL
  exact ⟨⟨by decide, hA, h1.1, h1.2⟩, ⟨by decide, hG, h2.1, h2.2⟩, ⟨hL, h3⟩⟩

theorem globalScore_eq_spec {H : Type} (d : GlobM H) (output : Ten2) (bsz : ℕ)
    (enc : Ten3) (hc : output.cols = d.nhid) :
    globalScore d output bsz enc = globalScoreSpec d output bsz enc := by
  unfold globalScore globalScoreSpec
  rw [hc]
  congr 1
  funext i j
  unfold dotR
  refine Finset.sum_congr rfl fun k _ => ?_
  rw [Finset.mul_sum]
  exact Finset.sum_congr rfl fun l _ => by ring

theorem globalPost_eq_spec {H : Type} (d : GlobM H) (bsz : ℕ) (enc : Ten3)
    (p : Ten2 × H) (hc : p.1.cols = d.nhid) :
    globalPost d bsz enc p = globalPostSpec d bsz enc p := by
  unfold globalPost globalPostSpec
  rw [globalScore_eq_spec d p.1 bsz enc hc]

/-- C2: whenever the global attention decoder's forward returns (its layer
loop succeeds exactly in the one-layer configuration, claim C10), the call
computes precisely the step the specification describes: the embedded token
concatenated with the caller-supplied `last_context` enters the recurrent
core; the recurrent output is scored against every encoder position by the
bilinear form `output · W · encᵀ` (stated as the explicit double
contraction); the scores are softmax-normalized; the context vector is the
attention-weighted sum of encoder outputs; and the result is the tuple
(log-probabilities, updated hidden state, new context vector, attention
weights), `globalStepSpec`. -/
theorem c2_global_step_refines_spec {H : Type} (d : GlobM H) (inp : ℕ → ℕ) (bsz : ℕ)
    (hid : H) (lc : Ten2) (enc : Ten3)
    (h1 : d.nlayers = 1) (hlc : lc.cols = d.nhid) :
    d.forward inp bsz hid lc enc = some (globalStepSpec d inp bsz hid lc enc) := by
  have hx0 : (catT2 (dropT2 d.dropF (embT d.embW inp bsz d.emsize)) lc).cols
      = d.rnn.inputSize := by
    show d.emsize + lc.cols = d.rnn.inputSize
    rw [hlc, d.rnn_in]
  have hcall : globalLoopBody d
      (catT2 (dropT2 d.dropF (embT d.embW inp bsz d.emsize)) lc) hid
      = some (d.rnn.run (catT2 (dropT2 d.dropF (embT d.embW inp bsz d.emsize)) lc) hid) :=
    RnnCore.call_pos _ _ _ hx0
  unfold GlobM.forward globalStepSpec
  rw [h1, runLayers_one, hcall, Option.map_some']
  exact congrArg some (globalPost_eq_spec d bsz enc _
    (by rw [d.rnn.run_cols, d.rnn_hid]))

/-- Witness for C2 at a concrete one-layer global attention decoder. -/
theorem c2_global_step_refines_spec_witness :
    globW.nlayers = 1 ∧ lcW.cols = globW.nhid ∧
    globW.forward inpW 1 () lcW encW = some (globalStepSpec globW inpW 1 () lcW encW) :=
  ⟨rfl, rfl, c2_global_step_refines_spec globW inpW 1 () lcW encW rfl rfl⟩

/-- C3: whenever the local/windowed decoder's forward returns, the weight it
returns at source position `j` of batch row `i` is the softmax-normalized
bilinear score multiplied by the Gaussian emphasis
`exp(-(j - p_t)² / (2·(window_size/2)²))` with `window_size` fixed at 3 by the
constructor, and the context vector it builds (and combines into the returned
log-probabilities) is the emphasized-weight-weighted aggregate of the encoder
outputs divided by `source_length` — not by the sum of the emphasized
weights. -/
theorem c3_local_emphasis_and_context {H : Type} (d : LocalM H) (inp : ℕ → ℕ)
    (bsz : ℕ) (hid : H) (enc : Ten3) (r : LocOut H)
    (hf : d.forward inp bsz hid enc = some r) :
    ∃ p : Ten2 × H,
      runLayers (localLoopBody d) d.nlayers
        (dropT2 d.dropF (embT d.embW inp bsz d.emsize)) hid = some p ∧
      (∀ i j, r.attn.ent i j
          = softmaxRow enc.d2 ((localScore d p.1 bsz enc).ent i) j
            * Real.exp (-(((j : ℝ) - ptVal d enc.d2 p.1 i) ^ 2)
                / (2 * ((3 : ℝ) / 2) ^ 2))) ∧
      (∀ i k, (localContext d p.1 bsz enc).ent i k
          = (∑ j ∈ Finset.range enc.d2, r.attn.ent i j * enc.ent i j k)
              / (enc.d2 : ℝ)) ∧
      r.out = logSoftmaxT (d.outL.apT
        (d.attnCombine.apT (catT2 (localContext d p.1 bsz enc) p.1))) := by
  obtain ⟨p, hp, hr⟩ := local_forward_dest d inp bsz hid enc r hf
  subst hr
  refine ⟨p, hp, ?_, fun i k => rfl, rfl⟩
  intro i j
  have harg : (((j : ℝ) - ptVal d enc.d2 p.1 i) ^ 2)
      / (-2 * ((3 : ℝ) / 2) * ((3 : ℝ) / 2))
      = -(((j : ℝ) - ptVal d enc.d2 p.1 i) ^ 2) / (2 * ((3 : ℝ) / 2) ^ 2) := by
    ring
  show softmaxRow enc.d2 ((localScore d p.1 bsz enc).ent i) j
      * Real.exp ((((j : ℝ) - ptVal d enc.d2 p.1 i) ^ 2)
          / (-2 * ((3 : ℝ) / 2) * ((3 : ℝ) / 2)))
      = softmaxRow enc.d2 ((localScore d p.1 bsz enc).ent i) j
      * Real.exp (-(((j : ℝ) - ptVal d enc.d2 p.1 i) ^ 2) / (2 * ((3 : ℝ) / 2) ^ 2))
  rw [harg]

/-- Witness for C3 at a concrete one-layer local attention decoder. -/
theorem c3_local_emphasis_and_context_witness :
    locW.forward inpW 1 () encW = some locWRes ∧
    ∃ p : Ten2 × Unit,
      runLayers (localLoopBody locW) locW.nlayers
        (dropT2 locW.dropF (embT locW.embW inpW 1 locW.emsize)) () = some p ∧
      (∀ i j, locWRes.attn.ent i j
          = softmaxRow encW.d2 ((localScore locW p.1 1 encW).ent i) j
            * Real.exp (-(((j : ℝ) - ptVal locW encW.d2 p.1 i) ^ 2)
                / (2 * ((3 : ℝ) / 2) ^ 2))) ∧
      (∀ i k, (localContext locW p.1 1 encW).ent i k
          = (∑ j ∈ Finset.range encW.d2, locWRes.attn.ent i j * encW.ent i j k)
              / (encW.d2 : ℝ)) ∧
      locWRes.out = logSoftmaxT (locW.outL.apT
        (locW.attnCombine.apT (catT2 (localContext locW p.1 1 encW) p.1))) :=
  ⟨rfl, c3_local_emphasis_and_context locW inpW 1 () encW locWRes rfl⟩
